import Mathlib

/-!
# Parent-liveness watchdog (`build/binaries/watchdog.c`)

A shallow embedding of `main` from `watchdog.c` and the properties of its
polling loop.  The operating system is an explicit `World`: it fixes the two
process identifiers and answers the i-th call of `kill` with a return value and
the value `errno` holds afterwards.  The C library is a `Libc` record holding
the two items of `<errno.h>` / `<string.h>` the program depends on.  Every
library call the program makes is appended to a trace, so that the order and the
arguments of the calls can be stated.
-/

namespace Watchdog

/-- The parts of the C library that `watchdog.c` uses but does not define:
the constant `ESRCH` of `errno.h` and the message table behind `perror`. -/
structure Libc where
  ESRCH : Int
  strerror : Int → String

/-- What one call of `kill` reports: its return value, and the value of
`errno` once the call is over (any value at all when the call succeeded). -/
structure ProbeResult where
  ret : Int
  errno : Int
deriving DecidableEq, Repr

/-- Everything the process can observe from outside: the identifiers returned
by `getppid` and `getpid`, the command line, the environment, and the answer of
the operating system to the i-th call of `kill`. -/
structure World where
  ppid : Int
  pid : Int
  argv : List String
  environ : List String
  kill_results : Nat → ProbeResult

/-- A library call made by the program, with its arguments. -/
inductive Call where
  | getppid : Call
  | getpid : Call
  | kill (pid : Int) (sig : Int) : Call
  | printf (format : String) : Call
  | perror (s : String) : Call
  | sleep (seconds : Nat) : Call
  | exit (status : Int) : Call
deriving DecidableEq, Repr

/-- Control state of the process: still executing `main`, ended by a call of
`exit`, or ended by a `return` from `main`. -/
inductive Status where
  | running : Status
  | exited (code : Int) : Status
  | returned (code : Int) : Status
deriving DecidableEq, Repr

/-- Machine state of `main`: its two locals, `errno`, the number of `kill`
calls made so far, both output streams, the trace of calls and the control
state. -/
structure State where
  parent_pid : Int
  piped_process_pid : Int
  errno : Int
  kills : Nat
  stdout : String
  stderr : String
  calls : List Call
  status : Status
deriving DecidableEq, Repr

/-- State at the opening brace of `main`: nothing written, nothing called,
`errno` zero as at every program start. -/
def start : State :=
  { parent_pid := 0, piped_process_pid := 0, errno := 0, kills := 0,
    stdout := "", stderr := "", calls := [], status := Status.running }

/-- Line 10, `pid_t parent_pid = getppid();`. -/
def getppid (w : World) (s : State) : State :=
  { s with parent_pid := w.ppid, calls := s.calls ++ [Call.getppid] }

/-- Line 11, `pid_t piped_process_pid = getpid();`. -/
def getpid (w : World) (s : State) : State :=
  { s with piped_process_pid := w.pid, calls := s.calls ++ [Call.getpid] }

/-- Library call `kill(pid, sig)`: the world answers the next probe; the
return value is handed back and `errno` takes the reported value. -/
def kill (w : World) (pid sig : Int) (s : State) : Int × State :=
  let r := w.kill_results s.kills
  (r.ret, { s with errno := r.errno, kills := s.kills + 1,
                   calls := s.calls ++ [Call.kill pid sig] })

/-- Library call `printf(format)` with a format free of conversions: the text
goes to standard output as it is. -/
def printf (format : String) (s : State) : State :=
  { s with stdout := s.stdout ++ format, calls := s.calls ++ [Call.printf format] }

/-- Library call `perror(msg)`: writes `msg`, a colon and a blank, the message
for the current `errno` and a newline to standard error. -/
def perror (L : Libc) (msg : String) (s : State) : State :=
  { s with stderr := s.stderr ++ (msg ++ ": " ++ L.strerror s.errno ++ "\n"),
           calls := s.calls ++ [Call.perror msg] }

/-- Library call `sleep(seconds)`. -/
def sleep (seconds : Nat) (s : State) : State :=
  { s with calls := s.calls ++ [Call.sleep seconds] }

/-- Library call `exit(status)`: the process ends with that status. -/
def exit (code : Int) (s : State) : State :=
  { s with status := Status.exited code, calls := s.calls ++ [Call.exit code] }

/-- The text of the `printf` on line 19. -/
def parentExitedMsg : String :=
  "Parent process exited. Exiting watchdog and terminating piped process.\n"

/-- The argument of the `perror` on line 22. -/
def checkErrorMsg : String := "Error checking parent process"

/-- Lines 16 to 28: one pass through the body of the `while` loop. -/
def loopBody (L : Libc) (w : World) (s : State) : State :=
  let (r, s1) := kill w s.parent_pid 0 s
  if r = -1 then
    if s1.errno = L.ESRCH then
      exit 0 (printf parentExitedMsg s1)
    else
      exit 1 (perror L checkErrorMsg s1)
  else
    sleep 1 s1

/-- The controlling expression of `while (1)`. -/
def loopCond : Int := 1

/-- Lines 14 to 31: the `while` loop followed by `return 0`, run for at most
`fuel` passes.  A state whose process has ended is left alone; a false
controlling expression leaves the loop and reaches `return 0`; with no fuel
left the state is handed back still running. -/
def mainLoop (L : Libc) (w : World) : Nat → State → State
  | 0, s => s
  | fuel + 1, s =>
    if s.status = Status.running then
      if loopCond ≠ 0 then mainLoop L w fuel (loopBody L w s)
      else { s with status := Status.returned 0 }
    else s

/-- Lines 8 to 12: the state on entry to the loop. -/
def init (w : World) : State := getpid w (getppid w start)

/-- The program `main`, run for at most `fuel` passes of its loop. -/
def main (L : Libc) (w : World) (fuel : Nat) : State :=
  mainLoop L w fuel (init w)

/-- The probe at position `i` counts as Alive: `kill` did not return -1. -/
def alive (w : World) (i : Nat) : Prop := (w.kill_results i).ret ≠ -1

instance (w : World) (i : Nat) : Decidable (alive w i) := by
  unfold alive; exact inferInstance

/-- The calls made by `n` passes that all found the parent alive. -/
def aliveCalls (ppid : Int) : Nat → List Call
  | 0 => []
  | n + 1 => aliveCalls ppid n ++ [Call.kill ppid 0, Call.sleep 1]

/-- Number of `sleep` calls in a trace. -/
def sleepCount : List Call → Nat
  | [] => 0
  | Call.sleep _ :: cs => sleepCount cs + 1
  | _ :: cs => sleepCount cs

/-- Sum of the arguments of all `sleep` calls in a trace, in seconds. -/
def sleepSeconds : List Call → Nat
  | [] => 0
  | Call.sleep n :: cs => n + sleepSeconds cs
  | _ :: cs => sleepSeconds cs

/-- Number of `kill` calls in a trace. -/
def killCount : List Call → Nat
  | [] => 0
  | Call.kill _ _ :: cs => killCount cs + 1
  | _ :: cs => killCount cs

/-- Number of `exit` calls in a trace. -/
def exitCount : List Call → Nat
  | [] => 0
  | Call.exit _ :: cs => exitCount cs + 1
  | _ :: cs => exitCount cs

/-- Number of `getppid` calls in a trace. -/
def getppidCount : List Call → Nat
  | [] => 0
  | Call.getppid :: cs => getppidCount cs + 1
  | _ :: cs => getppidCount cs

/-- A Linux-like C library: `ESRCH` is 3, `EPERM` is 1. -/
def linux : Libc :=
  { ESRCH := 3,
    strerror := fun e =>
      if e = 1 then "Operation not permitted"
      else if e = 3 then "No such process"
      else "Unknown error" }

/-- A world whose parent is alive for two probes and gone at the third. -/
def worldGone : World :=
  { ppid := 100, pid := 101, argv := ["watchdog"], environ := [],
    kill_results := fun i => if i < 2 then ⟨0, 0⟩ else ⟨-1, 3⟩ }

/-- A world whose first probe is refused with `EPERM`. -/
def worldDenied : World :=
  { ppid := 1, pid := 77, argv := ["watchdog"], environ := [],
    kill_results := fun _ => ⟨-1, 1⟩ }

/-- A world whose parent never goes away; successful probes leave a stale
`ESRCH` in `errno`. -/
def worldForever : World :=
  { ppid := 100, pid := 101, argv := ["watchdog"], environ := [],
    kill_results := fun _ => ⟨0, 3⟩ }

/-- The same as `worldGone` for the parent, with another own identifier,
command line and environment. -/
def worldGoneOther : World :=
  { ppid := 100, pid := 4242, argv := ["watchdog", "--verbose", "x"],
    environ := ["HOME=/root", "PGID=7"],
    kill_results := fun i => if i < 2 then ⟨0, 0⟩ else ⟨-1, 3⟩ }

/-- Value of `errno` after `n` probes. -/
def errnoAfter (w : World) : Nat → Int
  | 0 => 0
  | n + 1 => (w.kill_results n).errno

/-- The state reached by `n` passes that all found the parent alive. -/
def aliveState (w : World) (n : Nat) : State :=
  { parent_pid := w.ppid, piped_process_pid := w.pid, errno := errnoAfter w n,
    kills := n, stdout := "", stderr := "",
    calls := [Call.getppid, Call.getpid] ++ aliveCalls w.ppid n,
    status := Status.running }

/-- The state in which the process ends when probe `k` is the first one that
fails. -/
def finalState (L : Libc) (w : World) (k : Nat) : State :=
  if (w.kill_results k).errno = L.ESRCH then
    { parent_pid := w.ppid, piped_process_pid := w.pid,
      errno := (w.kill_results k).errno, kills := k + 1,
      stdout := parentExitedMsg, stderr := "",
      calls := [Call.getppid, Call.getpid] ++ aliveCalls w.ppid k ++
        [Call.kill w.ppid 0, Call.printf parentExitedMsg, Call.exit 0],
      status := Status.exited 0 }
  else
    { parent_pid := w.ppid, piped_process_pid := w.pid,
      errno := (w.kill_results k).errno, kills := k + 1,
      stdout := "",
      stderr := checkErrorMsg ++ ": " ++ L.strerror (w.kill_results k).errno ++ "\n",
      calls := [Call.getppid, Call.getpid] ++ aliveCalls w.ppid k ++
        [Call.kill w.ppid 0, Call.perror checkErrorMsg, Call.exit 1],
      status := Status.exited 1 }

/-! ## The loop -/

theorem mainLoop_halted (L : Libc) (w : World) (n : Nat) (s : State)
    (h : s.status ≠ Status.running) : mainLoop L w n s = s := by
  cases n with
  | zero => rfl
  | succ n => simp [mainLoop, h]

theorem mainLoop_running (L : Libc) (w : World) (n : Nat) (s : State)
    (h : s.status = Status.running) :
    mainLoop L w (n + 1) s = mainLoop L w n (loopBody L w s) := by
  simp [mainLoop, h, loopCond]

theorem mainLoop_add (L : Libc) (w : World) (a b : Nat) (s : State) :
    mainLoop L w (a + b) s = mainLoop L w b (mainLoop L w a s) := by
  induction a generalizing s with
  | zero => simp [mainLoop]
  | succ a ih =>
    by_cases h : s.status = Status.running
    · rw [Nat.add_right_comm, mainLoop_running L w _ s h, mainLoop_running L w _ s h, ih]
    · rw [mainLoop_halted L w _ s h, mainLoop_halted L w _ s h, mainLoop_halted L w _ s h]

theorem init_eq (w : World) : init w = aliveState w 0 := rfl

theorem loopBody_alive (L : Libc) (w : World) (n : Nat) (h : alive w n) :
    loopBody L w (aliveState w n) = aliveState w (n + 1) := by
  unfold alive at h
  simp [loopBody, kill, sleep, aliveState, h, errnoAfter, aliveCalls]

theorem loopBody_failed (L : Libc) (w : World) (k : Nat) (h : ¬ alive w k) :
    loopBody L w (aliveState w k) = finalState L w k := by
  unfold alive at h
  simp only [ne_eq, not_not] at h
  by_cases he : (w.kill_results k).errno = L.ESRCH
  · simp [loopBody, kill, exit, printf, aliveState, finalState, h, he]
  · simp [loopBody, kill, exit, perror, aliveState, finalState, h, he]

/-- While every probe so far found the parent alive, `main` is in the state
`aliveState`. -/
theorem main_alive (L : Libc) (w : World) (n : Nat) (h : ∀ i, i < n → alive w i) :
    main L w n = aliveState w n := by
  induction n with
  | zero => rfl
  | succ n ih =>
    have hn := ih (fun i hi => h i (Nat.lt_succ_of_lt hi))
    unfold main at hn ⊢
    rw [mainLoop_add, hn, mainLoop_running L w 0 _ rfl, loopBody_alive L w n (h n (Nat.lt_succ_self n))]
    rfl

theorem finalState_status (L : Libc) (w : World) (k : Nat) :
    (finalState L w k).status ≠ Status.running := by
  unfold finalState
  split <;> simp

/-- When probe `k` is the first one that fails, `main` is in the state
`finalState` from fuel `k + 1` on. -/
theorem main_failed (L : Libc) (w : World) (k : Nat) (h : ∀ i, i < k → alive w i)
    (hk : ¬ alive w k) (fuel : Nat) (hf : k + 1 ≤ fuel) :
    main L w fuel = finalState L w k := by
  obtain ⟨d, rfl⟩ := Nat.exists_eq_add_of_le hf
  have hn := main_alive L w k h
  unfold main at hn ⊢
  rw [mainLoop_add, mainLoop_add, hn, mainLoop_running L w 0 _ rfl, loopBody_failed L w k hk]
  exact mainLoop_halted L w d _ (finalState_status L w k)

/-- A run is either still in `aliveState`, or it ended at the first failing
probe and is in `finalState`. -/
theorem main_cases (L : Libc) (w : World) (n : Nat) :
    ((∀ i, i < n → alive w i) ∧ main L w n = aliveState w n) ∨
    (∃ k, k < n ∧ (∀ i, i < k → alive w i) ∧ ¬ alive w k ∧
      main L w n = finalState L w k) := by
  induction n with
  | zero => exact Or.inl ⟨fun i hi => absurd hi (Nat.not_lt_zero i), rfl⟩
  | succ n ih =>
    rcases ih with ⟨hall, _⟩ | ⟨k, hk, hpre, hfail, _⟩
    · by_cases hn : alive w n
      · have hall2 : ∀ i, i < n + 1 → alive w i := by
          intro i hi
          rcases Nat.lt_succ_iff_lt_or_eq.mp hi with h | h
          · exact hall i h
          · rw [h]; exact hn
        exact Or.inl ⟨hall2, main_alive L w (n + 1) hall2⟩
      · exact Or.inr ⟨n, Nat.lt_succ_self n, hall, hn,
          main_failed L w n hall hn (n + 1) (Nat.le_refl _)⟩
    · exact Or.inr ⟨k, Nat.lt_succ_of_lt hk, hpre, hfail,
        main_failed L w k hpre hfail (n + 1) (Nat.succ_le_succ (Nat.le_of_lt hk))⟩

/-! ## Counting calls in a trace -/

theorem sleepCount_append (a b : List Call) :
    sleepCount (a ++ b) = sleepCount a + sleepCount b := by
  induction a with
  | nil => simp [sleepCount]
  | cons c cs ih =>
    cases c <;> simp [sleepCount, ih]
    omega

theorem sleepSeconds_append (a b : List Call) :
    sleepSeconds (a ++ b) = sleepSeconds a + sleepSeconds b := by
  induction a with
  | nil => simp [sleepSeconds]
  | cons c cs ih =>
    cases c <;> simp [sleepSeconds, ih]
    omega

theorem killCount_append (a b : List Call) :
    killCount (a ++ b) = killCount a + killCount b := by
  induction a with
  | nil => simp [killCount]
  | cons c cs ih =>
    cases c <;> simp [killCount, ih]
    omega

theorem exitCount_append (a b : List Call) :
    exitCount (a ++ b) = exitCount a + exitCount b := by
  induction a with
  | nil => simp [exitCount]
  | cons c cs ih =>
    cases c <;> simp [exitCount, ih]
    omega

theorem getppidCount_append (a b : List Call) :
    getppidCount (a ++ b) = getppidCount a + getppidCount b := by
  induction a with
  | nil => simp [getppidCount]
  | cons c cs ih =>
    cases c <;> simp [getppidCount, ih]
    omega

theorem sleepCount_aliveCalls (p : Int) (n : Nat) : sleepCount (aliveCalls p n) = n := by
  induction n with
  | zero => rfl
  | succ n ih => simp [aliveCalls, sleepCount_append, ih, sleepCount]

theorem sleepSeconds_aliveCalls (p : Int) (n : Nat) : sleepSeconds (aliveCalls p n) = n := by
  induction n with
  | zero => rfl
  | succ n ih => simp [aliveCalls, sleepSeconds_append, ih, sleepSeconds]

theorem killCount_aliveCalls (p : Int) (n : Nat) : killCount (aliveCalls p n) = n := by
  induction n with
  | zero => rfl
  | succ n ih => simp [aliveCalls, killCount_append, ih, killCount]

theorem exitCount_aliveCalls (p : Int) (n : Nat) : exitCount (aliveCalls p n) = 0 := by
  induction n with
  | zero => rfl
  | succ n ih => simp [aliveCalls, exitCount_append, ih, exitCount]

theorem getppidCount_aliveCalls (p : Int) (n : Nat) : getppidCount (aliveCalls p n) = 0 := by
  induction n with
  | zero => rfl
  | succ n ih => simp [aliveCalls, getppidCount_append, ih, getppidCount]

theorem mem_aliveCalls (p : Int) (n : Nat) (c : Call) (h : c ∈ aliveCalls p n) :
    c = Call.kill p 0 ∨ c = Call.sleep 1 := by
  induction n with
  | zero => simp [aliveCalls] at h
  | succ n ih =>
    simp only [aliveCalls, List.mem_append, List.mem_cons, List.mem_singleton,
      List.not_mem_nil, or_false] at h
    rcases h with h | h | h
    · exact ih h
    · exact Or.inl h
    · exact Or.inr h

theorem getLast_append_three (l : List Call) (a b c : Call) :
    (l ++ [a, b, c]).getLast? = some c := by
  have h : l ++ [a, b, c] = (l ++ [a, b]) ++ [c] := by simp
  rw [h, List.getLast?_append]
  rfl

/-- Every call in the trace of a run is one of the seven the program can make,
with the arguments it gives them. -/
theorem mem_calls (L : Libc) (w : World) (n : Nat) (c : Call)
    (h : c ∈ (main L w n).calls) :
    c = Call.getppid ∨ c = Call.getpid ∨ c = Call.kill w.ppid 0 ∨ c = Call.sleep 1 ∨
    c = Call.printf parentExitedMsg ∨ c = Call.perror checkErrorMsg ∨
    c = Call.exit 0 ∨ c = Call.exit 1 := by
  rcases main_cases L w n with ⟨_, hm⟩ | ⟨k, _, _, _, hm⟩
  · rw [hm] at h
    simp only [aliveState, List.mem_append, List.mem_cons, List.mem_singleton,
      List.not_mem_nil, or_false] at h
    rcases h with (h | h) | h
    · exact Or.inl h
    · exact Or.inr (Or.inl h)
    · rcases mem_aliveCalls _ _ _ h with h | h
      · exact Or.inr (Or.inr (Or.inl h))
      · exact Or.inr (Or.inr (Or.inr (Or.inl h)))
  · rw [hm] at h
    unfold finalState at h
    split at h
    · simp only [List.mem_append, List.mem_cons, List.mem_singleton,
        List.not_mem_nil, or_false] at h
      rcases h with ((h | h) | h) | h | h | h
      · exact Or.inl h
      · exact Or.inr (Or.inl h)
      · rcases mem_aliveCalls _ _ _ h with h | h
        · exact Or.inr (Or.inr (Or.inl h))
        · exact Or.inr (Or.inr (Or.inr (Or.inl h)))
      · exact Or.inr (Or.inr (Or.inl h))
      · exact Or.inr (Or.inr (Or.inr (Or.inr (Or.inl h))))
      · exact Or.inr (Or.inr (Or.inr (Or.inr (Or.inr (Or.inr (Or.inl h))))))
    · simp only [List.mem_append, List.mem_cons, List.mem_singleton,
        List.not_mem_nil, or_false] at h
      rcases h with ((h | h) | h) | h | h | h
      · exact Or.inl h
      · exact Or.inr (Or.inl h)
      · rcases mem_aliveCalls _ _ _ h with h | h
        · exact Or.inr (Or.inr (Or.inl h))
        · exact Or.inr (Or.inr (Or.inr (Or.inl h)))
      · exact Or.inr (Or.inr (Or.inl h))
      · exact Or.inr (Or.inr (Or.inr (Or.inr (Or.inr (Or.inl h)))))
      · exact Or.inr (Or.inr (Or.inr (Or.inr (Or.inr (Or.inr (Or.inr h))))))

/-! ## The two ways out of the loop -/

/-- C1: when the first `k` probes find the parent alive and probe `k + 1`
returns -1 with `errno = ESRCH`, then up to that pass nothing was written and
the process was running, and from that pass on standard output holds exactly
the line "Parent process exited. Exiting watchdog and terminating piped
process." with its newline, standard error is empty, the exit status is 0, and
the pass consisted of the probe, the `printf` and `exit(0)`. -/
theorem parent_gone_prints_and_exits_zero (L : Libc) (w : World) (k : Nat)
    (hk : ∀ i, i < k → alive w i)
    (hret : (w.kill_results k).ret = -1)
    (herr : (w.kill_results k).errno = L.ESRCH)
    (fuel : Nat) (hf : k + 1 ≤ fuel) :
    (main L w k).status = Status.running ∧
    (main L w k).stdout = "" ∧ (main L w k).stderr = "" ∧
    (main L w fuel).stdout =
      "Parent process exited. Exiting watchdog and terminating piped process.\n" ∧
    (main L w fuel).stderr = "" ∧
    (main L w fuel).status = Status.exited 0 ∧
    (main L w fuel).calls = (main L w k).calls ++
      [Call.kill w.ppid 0,
       Call.printf "Parent process exited. Exiting watchdog and terminating piped process.\n",
       Call.exit 0] := by
  have hfail : ¬ alive w k := fun h => h hret
  rw [main_failed L w k hk hfail fuel hf, main_alive L w k hk]
  simp [finalState, aliveState, herr, parentExitedMsg]

theorem parent_gone_prints_and_exits_zero_witness :
    (main linux worldGone 7).stdout =
      "Parent process exited. Exiting watchdog and terminating piped process.\n" ∧
    (main linux worldGone 7).stderr = "" ∧
    (main linux worldGone 7).status = Status.exited 0 :=
  have h := parent_gone_prints_and_exits_zero linux worldGone 2 (by decide) (by decide)
    (by decide) 7 (by decide)
  ⟨h.2.2.2.1, h.2.2.2.2.1, h.2.2.2.2.2.1⟩

/-- C2: when the first `k` probes find the parent alive and probe `k + 1`
returns -1 with an `errno` other than `ESRCH`, then up to that pass nothing was
written, and from that pass on standard error holds the one line
"Error checking parent process: " followed by the message of that `errno` and a
newline (so it is not empty), standard output is empty, the exit status is 1,
and the pass consisted of the probe, the `perror` and `exit(1)`. -/
theorem probe_error_reports_and_exits_one (L : Libc) (w : World) (k : Nat)
    (hk : ∀ i, i < k → alive w i)
    (hret : (w.kill_results k).ret = -1)
    (herr : (w.kill_results k).errno ≠ L.ESRCH)
    (fuel : Nat) (hf : k + 1 ≤ fuel) :
    (main L w k).status = Status.running ∧
    (main L w k).stdout = "" ∧ (main L w k).stderr = "" ∧
    (main L w fuel).stderr =
      "Error checking parent process: " ++ L.strerror (w.kill_results k).errno ++ "\n" ∧
    (main L w fuel).stderr ≠ "" ∧
    (main L w fuel).stdout = "" ∧
    (main L w fuel).status = Status.exited 1 ∧
    (main L w fuel).calls = (main L w k).calls ++
      [Call.kill w.ppid 0, Call.perror "Error checking parent process", Call.exit 1] := by
  have hfail : ¬ alive w k := fun h => h hret
  have hlit : checkErrorMsg ++ ": " = "Error checking parent process: " := by decide
  rw [main_failed L w k hk hfail fuel hf, main_alive L w k hk]
  unfold finalState
  rw [if_neg herr]
  refine ⟨rfl, rfl, rfl, ?_, ?_, rfl, rfl, ?_⟩
  · rw [← hlit]
  · intro h
    have hlen := congrArg String.length h
    simp only [String.length_append] at hlen
    have h29 : checkErrorMsg.length = 29 := by decide
    have h0 : ("" : String).length = 0 := rfl
    rw [h29, h0] at hlen
    omega
  · simp [aliveState, checkErrorMsg]

theorem probe_error_reports_and_exits_one_witness :
    (main linux worldDenied 1).stderr =
      "Error checking parent process: " ++ "Operation not permitted" ++ "\n" ∧
    (main linux worldDenied 1).stdout = "" ∧
    (main linux worldDenied 1).status = Status.exited 1 :=
  have h := probe_error_reports_and_exits_one linux worldDenied 0 (by decide) (by decide)
    (by decide) 1 (by decide)
  ⟨h.2.2.2.1, h.2.2.2.2.2.1, h.2.2.2.2.2.2.1⟩

/-- C3: in every run that has ended, the probe that ended it is the first one
that returned -1, it is the last probe made, and the exit status is 0 exactly
when that probe left `errno = ESRCH`, 1 exactly when it left any other `errno`;
the status is one of these two and never came from a `return`. -/
theorem exit_status_classification (L : Libc) (w : World) (n : Nat)
    (hterm : (main L w n).status ≠ Status.running) :
    ∃ k, k < n ∧ (∀ i, i < k → alive w i) ∧ (w.kill_results k).ret = -1 ∧
      (main L w n).kills = k + 1 ∧
      ((main L w n).status = Status.exited 0 ↔ (w.kill_results k).errno = L.ESRCH) ∧
      ((main L w n).status = Status.exited 1 ↔ (w.kill_results k).errno ≠ L.ESRCH) ∧
      ((main L w n).status = Status.exited 0 ∨ (main L w n).status = Status.exited 1) := by
  rcases main_cases L w n with ⟨_, hm⟩ | ⟨k, hkn, hpre, hfail, hm⟩
  · rw [hm] at hterm
    exact absurd rfl hterm
  · refine ⟨k, hkn, hpre, ?_, ?_⟩
    · unfold alive at hfail
      simpa using hfail
    · rw [hm]
      unfold finalState
      by_cases he : (w.kill_results k).errno = L.ESRCH
      · simp [he]
      · simp [he]

theorem exit_status_classification_witness :
    ∃ k, k < 5 ∧ (∀ i, i < k → alive worldGone i) ∧ (worldGone.kill_results k).ret = -1 ∧
      (main linux worldGone 5).kills = k + 1 ∧
      ((main linux worldGone 5).status = Status.exited 0 ↔
        (worldGone.kill_results k).errno = linux.ESRCH) ∧
      ((main linux worldGone 5).status = Status.exited 1 ↔
        (worldGone.kill_results k).errno ≠ linux.ESRCH) ∧
      ((main linux worldGone 5).status = Status.exited 0 ∨
        (main linux worldGone 5).status = Status.exited 1) :=
  exit_status_classification linux worldGone 5 (by decide)

/-- C4: for every `n`, if the first `n` probes find the parent alive, then
after `n` passes of the loop (`n` probes made) the process is still running,
`exit` has not been called, and nothing has been written to standard output or
standard error. -/
theorem alive_parent_keeps_running_silently (L : Libc) (w : World) (n : Nat)
    (h : ∀ i, i < n → alive w i) :
    (main L w n).kills = n ∧
    (main L w n).status = Status.running ∧
    exitCount (main L w n).calls = 0 ∧
    (main L w n).stdout = "" ∧
    (main L w n).stderr = "" := by
  rw [main_alive L w n h]
  refine ⟨rfl, rfl, ?_, rfl, rfl⟩
  simp [aliveState, exitCount, exitCount_aliveCalls]

theorem alive_parent_keeps_running_silently_witness :
    (main linux worldForever 3).kills = 3 ∧
    (main linux worldForever 3).status = Status.running ∧
    exitCount (main linux worldForever 3).calls = 0 ∧
    (main linux worldForever 3).stdout = "" ∧
    (main linux worldForever 3).stderr = "" :=
  alive_parent_keeps_running_silently linux worldForever 3 (by decide)

/-! ## Sleeps, probes and the order of calls -/

/-- C5: when the first `k` probes find the parent alive and probe `k + 1`
returns -1, the finished run has called `sleep` exactly `k` times, every time
with argument 1 (so `k` seconds in all); its trace is the two start-up calls,
then `k` times a probe followed by `sleep(1)`, then the failing probe, the
message and the `exit`, so no sleep comes before the first probe or after the
failing one.  With `k = 0` the run ends in the first pass with no sleep.  After
any `N ≤ k` completed passes `N` sleeps of 1 second, `N` seconds in all, were
requested. -/
theorem sleeps_between_probes (L : Libc) (w : World) (k : Nat)
    (hk : ∀ i, i < k → alive w i)
    (hret : (w.kill_results k).ret = -1)
    (fuel : Nat) (hf : k + 1 ≤ fuel) :
    sleepCount (main L w fuel).calls = k ∧
    sleepSeconds (main L w fuel).calls = k ∧
    (∀ n, Call.sleep n ∈ (main L w fuel).calls → n = 1) ∧
    ((main L w fuel).calls = [Call.getppid, Call.getpid] ++ aliveCalls w.ppid k ++
        [Call.kill w.ppid 0, Call.printf parentExitedMsg, Call.exit 0] ∨
     (main L w fuel).calls = [Call.getppid, Call.getpid] ++ aliveCalls w.ppid k ++
        [Call.kill w.ppid 0, Call.perror checkErrorMsg, Call.exit 1]) ∧
    sleepCount (main L w 0).calls = 0 ∧
    (k = 0 → (main L w 1).status ≠ Status.running ∧ (main L w 1).kills = 1 ∧
      sleepCount (main L w 1).calls = 0) ∧
    (∀ N, N ≤ k → (main L w N).kills = N ∧ sleepCount (main L w N).calls = N ∧
      sleepSeconds (main L w N).calls = N) := by
  have hfail : ¬ alive w k := fun h => h hret
  have hfin : ∀ f, k + 1 ≤ f →
      sleepCount (main L w f).calls = k ∧ (main L w f).status ≠ Status.running ∧
      (main L w f).kills = k + 1 := by
    intro f hle
    rw [main_failed L w k hk hfail f hle]
    unfold finalState
    split <;>
      simp [sleepCount_append, sleepCount_aliveCalls, sleepCount]
  refine ⟨(hfin fuel hf).1, ?_, ?_, ?_, rfl, ?_, ?_⟩
  · rw [main_failed L w k hk hfail fuel hf]
    unfold finalState
    split <;>
      simp [sleepSeconds_append, sleepSeconds_aliveCalls, sleepSeconds]
  · intro n hn
    rcases mem_calls L w fuel _ hn with h | h | h | h | h | h | h | h <;>
      first
      | exact Call.noConfusion h
      | (injection h)
  · rw [main_failed L w k hk hfail fuel hf]
    unfold finalState
    split
    · exact Or.inl rfl
    · exact Or.inr rfl
  · intro h0
    subst h0
    have h1 := hfin 1 (Nat.le_refl _)
    exact ⟨h1.2.1, h1.2.2, h1.1⟩
  · intro N hN
    rw [main_alive L w N (fun i hi => hk i (Nat.lt_of_lt_of_le hi hN))]
    simp [aliveState, sleepCount_append, sleepCount_aliveCalls, sleepCount,
      sleepSeconds_append, sleepSeconds_aliveCalls, sleepSeconds]

theorem sleeps_between_probes_witness :
    sleepCount (main linux worldGone 9).calls = 2 ∧
    sleepSeconds (main linux worldGone 9).calls = 2 ∧
    (∀ n, Call.sleep n ∈ (main linux worldGone 9).calls → n = 1) :=
  have h := sleeps_between_probes linux worldGone 2 (by decide) (by decide) 9 (by decide)
  ⟨h.1, h.2.1, h.2.2.1⟩

/-- C6: when the first `k` probes find the parent alive and probe `k + 1`
returns -1, exactly `k + 1` probes are made however long the run is allowed to
go on; the state after pass `k + 1` never changes again; `exit` is called once;
and what pass `k + 1` added to the run of the `k` passes before it is the
probe, one message (on standard output with `exit(0)`, or on standard error
with `exit(1)`) and nothing else.  The pass before it ended with the single
`sleep(1)` that separates two polls, and a probe reporting `ESRCH` ends the run
with status 0 in that very pass. -/
theorem failure_is_terminal (L : Libc) (w : World) (k : Nat)
    (hk : ∀ i, i < k → alive w i)
    (hret : (w.kill_results k).ret = -1)
    (fuel : Nat) (hf : k + 1 ≤ fuel) :
    (main L w fuel).kills = k + 1 ∧
    killCount (main L w fuel).calls = k + 1 ∧
    exitCount (main L w fuel).calls = 1 ∧
    main L w fuel = main L w (k + 1) ∧
    (main L w k).status = Status.running ∧
    (main L w fuel).status ≠ Status.running ∧
    (((main L w fuel).calls = (main L w k).calls ++
          [Call.kill w.ppid 0, Call.printf parentExitedMsg, Call.exit 0] ∧
        (main L w fuel).stdout = parentExitedMsg ∧ (main L w fuel).stderr = "") ∨
     ((main L w fuel).calls = (main L w k).calls ++
          [Call.kill w.ppid 0, Call.perror checkErrorMsg, Call.exit 1] ∧
        (main L w fuel).stdout = "" ∧
        (main L w fuel).stderr =
          checkErrorMsg ++ ": " ++ L.strerror (w.kill_results k).errno ++ "\n")) ∧
    (0 < k → (main L w k).calls = (main L w (k - 1)).calls ++
      [Call.kill w.ppid 0, Call.sleep 1]) ∧
    ((w.kill_results k).errno = L.ESRCH → (main L w (k + 1)).status = Status.exited 0) := by
  have hfail : ¬ alive w k := fun h => h hret
  rw [main_failed L w k hk hfail fuel hf, main_failed L w k hk hfail (k + 1) (Nat.le_refl _),
    main_alive L w k hk]
  refine ⟨?_, ?_, ?_, rfl, rfl, finalState_status L w k, ?_, ?_, ?_⟩
  · unfold finalState
    split <;> rfl
  · unfold finalState
    split <;> simp [killCount_append, killCount_aliveCalls, killCount]
  · unfold finalState
    split <;> simp [exitCount_append, exitCount_aliveCalls, exitCount]
  · unfold finalState
    split
    · exact Or.inl ⟨rfl, rfl, rfl⟩
    · exact Or.inr ⟨rfl, rfl, rfl⟩
  · intro hpos
    obtain ⟨j, rfl⟩ := Nat.exists_eq_succ_of_ne_zero (Nat.pos_iff_ne_zero.mp hpos)
    rw [Nat.succ_sub_one, main_alive L w j (fun i hi => hk i (Nat.lt_succ_of_lt hi))]
    simp [aliveState, aliveCalls]
  · intro he
    unfold finalState
    rw [if_pos he]

theorem failure_is_terminal_witness :
    (main linux worldGone 50).kills = 3 ∧
    killCount (main linux worldGone 50).calls = 3 ∧
    exitCount (main linux worldGone 50).calls = 1 ∧
    main linux worldGone 50 = main linux worldGone 3 :=
  have h := failure_is_terminal linux worldGone 2 (by decide) (by decide) 50 (by decide)
  ⟨h.1, h.2.1, h.2.2.1, h.2.2.2.1⟩

/-! ## What the run depends on -/

/-- C7: two runs that are given the same parent identifier and the same
sequence of probe results make the same calls in the same order, write the same
text to both streams and end with the same status after every number of
passes, whatever their command lines, their environments and the values
returned by `getpid`. -/
theorem run_depends_only_on_parent_and_probes (L : Libc) (w1 w2 : World)
    (hp : w1.ppid = w2.ppid)
    (hr : ∀ i, w1.kill_results i = w2.kill_results i) (fuel : Nat) :
    (main L w1 fuel).calls = (main L w2 fuel).calls ∧
    (main L w1 fuel).stdout = (main L w2 fuel).stdout ∧
    (main L w1 fuel).stderr = (main L w2 fuel).stderr ∧
    (main L w1 fuel).status = (main L w2 fuel).status ∧
    (main L w1 fuel).kills = (main L w2 fuel).kills := by
  have hal : ∀ i, alive w1 i ↔ alive w2 i := by
    intro i
    unfold alive
    rw [hr i]
  rcases main_cases L w1 fuel with ⟨hall, hm⟩ | ⟨k, hkn, hpre, hfail, hm⟩
  · rw [hm, main_alive L w2 fuel (fun i hi => (hal i).mp (hall i hi))]
    simp [aliveState, hp]
  · rw [hm, main_failed L w2 k (fun i hi => (hal i).mp (hpre i hi))
      (fun h => hfail ((hal k).mpr h)) fuel hkn]
    unfold finalState
    rw [hr k, hp]
    split <;> simp

theorem run_depends_only_on_parent_and_probes_witness :
    worldGone.pid ≠ worldGoneOther.pid ∧
    worldGone.argv ≠ worldGoneOther.argv ∧
    worldGone.environ ≠ worldGoneOther.environ ∧
    (main linux worldGone 6).calls = (main linux worldGoneOther 6).calls ∧
    (main linux worldGone 6).stdout = (main linux worldGoneOther 6).stdout ∧
    (main linux worldGone 6).stderr = (main linux worldGoneOther 6).stderr ∧
    (main linux worldGone 6).status = (main linux worldGoneOther 6).status ∧
    (main linux worldGone 6).kills = (main linux worldGoneOther 6).kills :=
  ⟨by decide, by decide, by decide,
    run_depends_only_on_parent_and_probes linux worldGone worldGoneOther rfl (fun _ => rfl) 6⟩

/-- C8: a run ends if and only if some probe returns -1; when probe `k + 1` is
the first such probe the run is still going after `k` passes and has ended
after `k + 1`, with `k + 1` probes made; when no probe ever returns -1 the
process is still running after every number of passes; a run that has ended
made `exit(0)` or `exit(1)` its last call; and no run ever reaches the
`return 0` behind the loop. -/
theorem loop_ends_only_through_exit (L : Libc) (w : World) :
    ((∃ n, (main L w n).status ≠ Status.running) ↔ ∃ k, (w.kill_results k).ret = -1) ∧
    (∀ k, (∀ i, i < k → alive w i) → (w.kill_results k).ret = -1 →
      (main L w k).status = Status.running ∧
      (main L w (k + 1)).status ≠ Status.running ∧
      (main L w (k + 1)).kills = k + 1) ∧
    ((∀ i, alive w i) → ∀ n, (main L w n).status = Status.running ∧ (main L w n).kills = n) ∧
    (∀ n, (main L w n).status ≠ Status.running →
      (main L w n).calls.getLast? = some (Call.exit 0) ∨
      (main L w n).calls.getLast? = some (Call.exit 1)) ∧
    (∀ n c, (main L w n).status ≠ Status.returned c) := by
  refine ⟨⟨?_, ?_⟩, ?_, ?_, ?_, ?_⟩
  · rintro ⟨n, hn⟩
    rcases main_cases L w n with ⟨_, hm⟩ | ⟨k, _, _, hfail, _⟩
    · rw [hm] at hn
      exact absurd rfl hn
    · refine ⟨k, ?_⟩
      unfold alive at hfail
      simpa using hfail
  · rintro ⟨k, hk⟩
    refine ⟨k + 1, ?_⟩
    rcases main_cases L w (k + 1) with ⟨hall, _⟩ | ⟨j, _, _, _, hm⟩
    · exact absurd hk (hall k (Nat.lt_succ_self k))
    · rw [hm]
      exact finalState_status L w j
  · intro k hk hret
    have hfail : ¬ alive w k := fun h => h hret
    rw [main_alive L w k hk, main_failed L w k hk hfail (k + 1) (Nat.le_refl _)]
    refine ⟨rfl, finalState_status L w k, ?_⟩
    unfold finalState
    split <;> rfl
  · intro hall n
    rw [main_alive L w n (fun i _ => hall i)]
    exact ⟨rfl, rfl⟩
  · intro n hn
    rcases main_cases L w n with ⟨_, hm⟩ | ⟨k, _, _, _, hm⟩
    · rw [hm] at hn
      exact absurd rfl hn
    · rw [hm]
      unfold finalState
      split
      · exact Or.inl (getLast_append_three _ _ _ _)
      · exact Or.inr (getLast_append_three _ _ _ _)
  · intro n c
    rcases main_cases L w n with ⟨_, hm⟩ | ⟨k, _, _, _, hm⟩
    · rw [hm]
      simp [aliveState]
    · rw [hm]
      unfold finalState
      split <;> simp

theorem loop_ends_only_through_exit_witness :
    (∃ n, (main linux worldGone n).status ≠ Status.running) ∧
    (∀ n, (main linux worldForever n).status = Status.running ∧
      (main linux worldForever n).kills = n) :=
  ⟨(loop_ends_only_through_exit linux worldGone).1.mpr ⟨2, by decide⟩,
   (loop_ends_only_through_exit linux worldForever).2.2.1 (fun _ => by show (0 : Int) ≠ -1; decide)⟩

/-- C9: after every number of passes the trace holds exactly one `getppid`
call, and it is the first call, made before any pass of the loop; the local
`parent_pid` holds the value that call returned; every `kill` in the trace has
that value as its target and 0 as its signal number.  A single pass from any
state leaves `parent_pid` as it was and starts with `kill(parent_pid, 0)`. -/
theorem probes_target_captured_parent (L : Libc) (w : World) (n : Nat) :
    getppidCount (main L w n).calls = 1 ∧
    (main L w n).calls.head? = some Call.getppid ∧
    (main L w 0).calls = [Call.getppid, Call.getpid] ∧
    (main L w n).parent_pid = w.ppid ∧
    (∀ p sg, Call.kill p sg ∈ (main L w n).calls → p = w.ppid ∧ sg = 0) ∧
    (∀ s : State, (loopBody L w s).parent_pid = s.parent_pid ∧
      ∃ rest, (loopBody L w s).calls = s.calls ++ Call.kill s.parent_pid 0 :: rest) := by
  refine ⟨?_, ?_, rfl, ?_, ?_, ?_⟩
  · rcases main_cases L w n with ⟨_, hm⟩ | ⟨k, _, _, _, hm⟩
    · rw [hm]
      simp [aliveState, getppidCount_append, getppidCount_aliveCalls, getppidCount]
    · rw [hm]
      unfold finalState
      split <;>
        simp [getppidCount_append, getppidCount_aliveCalls, getppidCount]
  · rcases main_cases L w n with ⟨_, hm⟩ | ⟨k, _, _, _, hm⟩
    · rw [hm]
      simp [aliveState]
    · rw [hm]
      unfold finalState
      split <;> simp
  · rcases main_cases L w n with ⟨_, hm⟩ | ⟨k, _, _, _, hm⟩
    · rw [hm]
      rfl
    · rw [hm]
      unfold finalState
      split <;> rfl
  · intro p sg hmem
    rcases mem_calls L w n _ hmem with h | h | h | h | h | h | h | h <;>
      first
      | exact Call.noConfusion h
      | (injection h with h1 h2; exact ⟨h1, h2⟩)
  · intro s
    unfold loopBody kill
    simp only
    split
    · split
      · exact ⟨rfl, [Call.printf parentExitedMsg, Call.exit 0], by simp [exit, printf]⟩
      · exact ⟨rfl, [Call.perror checkErrorMsg, Call.exit 1], by simp [exit, perror]⟩
    · exact ⟨rfl, [Call.sleep 1], by simp [sleep]⟩

/-- C10: in one pass of the loop from any state, whatever `errno` holds before
the probe and whatever the probe leaves in it: if `kill` returns anything but
-1 the pass writes nothing, keeps the control state, and makes the probe and
`sleep(1)` its only calls, after which a running process goes round the loop
again; if `kill` returns -1 the pass ends the process, with status 0 exactly
when `errno` is `ESRCH` and status 1 exactly when it is not. -/
theorem errno_read_only_after_failure (L : Libc) (w : World) (s : State) :
    ((w.kill_results s.kills).ret ≠ -1 →
      (loopBody L w s).status = s.status ∧
      (loopBody L w s).stdout = s.stdout ∧
      (loopBody L w s).stderr = s.stderr ∧
      (loopBody L w s).calls = s.calls ++ [Call.kill s.parent_pid 0, Call.sleep 1] ∧
      (s.status = Status.running → ∀ fuel,
        mainLoop L w (fuel + 1) s = mainLoop L w fuel (loopBody L w s) ∧
        (loopBody L w s).status = Status.running)) ∧
    ((w.kill_results s.kills).ret = -1 →
      ((loopBody L w s).status = Status.exited 0 ↔
        (w.kill_results s.kills).errno = L.ESRCH) ∧
      ((loopBody L w s).status = Status.exited 1 ↔
        (w.kill_results s.kills).errno ≠ L.ESRCH)) := by
  constructor
  · intro hret
    have hb : loopBody L w s = sleep 1 (kill w s.parent_pid 0 s).2 := by
      simp [loopBody, kill, hret]
    refine ⟨?_, ?_, ?_, ?_, ?_⟩
    · rw [hb]; rfl
    · rw [hb]; rfl
    · rw [hb]; rfl
    · rw [hb]; simp [sleep, kill]
    · intro hrun fuel
      refine ⟨mainLoop_running L w fuel s hrun, ?_⟩
      rw [hb]
      exact hrun
  · intro hret
    by_cases he : (w.kill_results s.kills).errno = L.ESRCH
    · simp [loopBody, kill, exit, printf, hret, he]
    · simp [loopBody, kill, exit, perror, hret, he]

theorem errno_read_only_after_failure_witness :
    (worldForever.kill_results (aliveState worldForever 4).kills).errno = linux.ESRCH ∧
    (loopBody linux worldForever (aliveState worldForever 4)).status = Status.running ∧
    (loopBody linux worldForever (aliveState worldForever 4)).stdout = "" :=
  ⟨by decide,
   ((errno_read_only_after_failure linux worldForever (aliveState worldForever 4)).1
      (by decide)).1,
   ((errno_read_only_after_failure linux worldForever (aliveState worldForever 4)).1
      (by decide)).2.1⟩

end Watchdog
